import Mathlib

/-!
# go-ukigumo-agent: build detection, execution, classification and reporting

A shallow embedding of `ukigumo-client.go` and `ukigumo-agent.go`.

* Go strings and `[]byte` values are byte sequences (`GoString`).
* The operating system (clock, child processes, file system) is an explicit
  parameter `Sys σ` acting on a world state `σ`; every function that touches it
  threads a `Proc σ`, which also records the external commands started so far.
* `RunCommand`, `RunBuildPL`, `RunMakefilePL` and `RunTests` are textually the
  same in both source files (only the spelling of the status constants
  differs); the definitions below follow `ukigumo-client.go`.
-/

namespace Ukigumo

/-! ## Bytes and strings -/

/-- A Go `byte`. -/
abbrev Byte := Fin 256

/-- A Go `string` or `[]byte`: a finite sequence of bytes. -/
abbrev GoString := List Byte

/-- The byte of an ASCII character literal. -/
def chr (c : Char) : Byte := Fin.ofNat c.toNat

/-- The bytes of an ASCII string literal of the source. -/
def str (s : String) : GoString := s.toList.map chr

/-- A Go `error` value, identified by its message. -/
abbrev Error := String

/-! ## Status constants (`ukigumo-client.go` lines 17-24) -/

def STATUS_SUCCESS : String := "1"
def STATUS_FAIL : String := "2"
def STATUS_NA : String := "3"
def STATUS_SKIP : String := "4"
def STATUS_PENDING : String := "5"
def STATUS_TIMEOUT : String := "6"

/-! ## The environment -/

/-- An external command line: program name and arguments. -/
structure Command where
  name : String
  args : List String
  deriving DecidableEq, Repr

/-- The operating-system services the program calls.
`now` is `time.Now().String()`, `combinedOutput` is
`exec.Command(cmd, args...).CombinedOutput()` and `stat` is the error returned
by `os.Stat`. -/
structure Sys (σ : Type) where
  now : σ → GoString × σ
  combinedOutput : Command → σ → (GoString × Option Error) × σ
  stat : String → σ → Option Error

/-- The state of one process: the world and the commands started so far
(oldest first). -/
structure Proc (σ : Type) where
  world : σ
  trace : List Command

/-- What `RunCommand` leaves behind: the returned error, the buffer and the
process state. -/
structure CmdOutcome (σ : Type) where
  err : Option Error
  buf : GoString
  proc : Proc σ

/-- The timestamp marker written before each command's output. -/
def marker (ts : GoString) : GoString := str "\n++ " ++ ts ++ str " ++\n"

/-- `RunCommand(buf, cmd, args...)`: write the marker, run the command, append
its combined output, return its error. -/
def RunCommand {σ : Type} (sys : Sys σ) (buf : GoString) (p : Proc σ)
    (cmd : String) (args : List String) : CmdOutcome σ :=
  let t := sys.now p.world
  let buf1 := buf ++ marker t.1
  let r := sys.combinedOutput ⟨cmd, args⟩ t.2
  let buf2 := buf1 ++ r.1.1
  ⟨r.1.2, buf2, ⟨r.2, p.trace ++ [⟨cmd, args⟩]⟩⟩

/-- The triple `(string, []byte, error)` returned by the runners, together with
the process state they leave. -/
structure Result (σ : Type) where
  status : String
  out : GoString
  err : Option Error
  proc : Proc σ

/-- `RunBuildPL(buf)`: Perl project using Module::Build. -/
def RunBuildPL {σ : Type} (sys : Sys σ) (buf : GoString) (p : Proc σ) : Result σ :=
  let r1 := RunCommand sys buf p "perl" ["Build.PL"]
  match r1.err with
  | some e => ⟨STATUS_NA, r1.buf, some e, r1.proc⟩
  | none =>
    let r2 := RunCommand sys r1.buf r1.proc "./Build" []
    match r2.err with
    | some e => ⟨STATUS_NA, r2.buf, some e, r2.proc⟩
    | none =>
      let r3 := RunCommand sys r2.buf r2.proc "./Build" ["test"]
      match r3.err with
      | some e => ⟨STATUS_FAIL, r3.buf, some e, r3.proc⟩
      | none => ⟨STATUS_SUCCESS, r3.buf, none, r3.proc⟩

/-- `RunMakefilePL(buf)`: Perl project using ExtUtils::MakeMaker. -/
def RunMakefilePL {σ : Type} (sys : Sys σ) (buf : GoString) (p : Proc σ) : Result σ :=
  let r1 := RunCommand sys buf p "perl" ["Makefile.PL"]
  match r1.err with
  | some e => ⟨STATUS_NA, r1.buf, some e, r1.proc⟩
  | none =>
    let r2 := RunCommand sys r1.buf r1.proc "make" []
    match r2.err with
    | some e => ⟨STATUS_NA, r2.buf, some e, r2.proc⟩
    | none =>
      let r3 := RunCommand sys r2.buf r2.proc "make" ["test"]
      match r3.err with
      | some e => ⟨STATUS_FAIL, r3.buf, some e, r3.proc⟩
      | none => ⟨STATUS_SUCCESS, r3.buf, none, r3.proc⟩

def errUkigumoYml : Error := ".ukigumo.yml is not supported yet"

def errUnknownProject : Error :=
  "Unknown project type. There is no .ukigumo.yml, Makefile.PL or Build.PL."

/-- `RunTests()`: allocate a fresh buffer, detect the project kind by marker
files in fixed order and run the matching strategy. -/
def RunTests {σ : Type} (sys : Sys σ) (p : Proc σ) : Result σ :=
  let buf : GoString := []
  if sys.stat ".ukigumo.yml" p.world = none then
    ⟨STATUS_NA, buf, some errUkigumoYml, p⟩
  else if sys.stat "Build.PL" p.world = none then
    RunBuildPL sys buf p
  else if sys.stat "Makefile.PL" p.world = none then
    RunMakefilePL sys buf p
  else
    ⟨STATUS_NA, buf, some errUnknownProject, p⟩

/-! ## Reading a run back: one command step at a time -/

/-- The observable outcome of one executed command. -/
structure Step (σ : Type) where
  cmd : Command
  ts : GoString
  out : GoString
  err : Option Error
  world : σ

/-- Execute one command from world `w`: read the clock, then run it. -/
def stepOf {σ : Type} (sys : Sys σ) (c : Command) (w : σ) : Step σ :=
  let t := sys.now w
  let r := sys.combinedOutput c t.2
  ⟨c, t.1, r.1.1, r.1.2, r.2⟩

/-- The log section of one executed command: marker, then output verbatim. -/
def Step.text {σ : Type} (s : Step σ) : GoString := marker s.ts ++ s.out

/-- The three commands of the Module::Build strategy. -/
def buildPLCommands : List Command :=
  [⟨"perl", ["Build.PL"]⟩, ⟨"./Build", []⟩, ⟨"./Build", ["test"]⟩]

/-- The three commands of the MakeMaker strategy. -/
def makefilePLCommands : List Command :=
  [⟨"perl", ["Makefile.PL"]⟩, ⟨"make", []⟩, ⟨"make", ["test"]⟩]

/-- The status table of a three-step strategy run on commands `c1 c2 c3` from
buffer `buf` and process state `p`, against the result `res`. -/
def ClassifiedAs {σ : Type} (sys : Sys σ) (c1 c2 c3 : Command) (p : Proc σ)
    (res : Result σ) : Prop :=
  let s1 := stepOf sys c1 p.world
  let s2 := stepOf sys c2 s1.world
  let s3 := stepOf sys c3 s2.world
  (∀ e, s1.err = some e → res.status = "3" ∧ res.err = some e) ∧
  (∀ e, s1.err = none → s2.err = some e → res.status = "3" ∧ res.err = some e) ∧
  (∀ e, s1.err = none → s2.err = none → s3.err = some e →
      res.status = "2" ∧ res.err = some e) ∧
  (s1.err = none → s2.err = none → s3.err = none →
      res.status = "1" ∧ res.err = none) ∧
  (res.err = none ↔ res.status = "1")

/-- The execution discipline of a three-step strategy: the commands run are
the initial segment of `c1 c2 c3` ending at the first failure, and the log is
the old buffer followed by exactly their sections in order. -/
def RanUpToFirstFailure {σ : Type} (sys : Sys σ) (c1 c2 c3 : Command)
    (buf : GoString) (p : Proc σ) (res : Result σ) : Prop :=
  let s1 := stepOf sys c1 p.world
  let s2 := stepOf sys c2 s1.world
  let s3 := stepOf sys c3 s2.world
  (s1.err ≠ none →
      res.proc.trace = p.trace ++ [c1] ∧ res.out = buf ++ s1.text) ∧
  (s1.err = none → s2.err ≠ none →
      res.proc.trace = p.trace ++ [c1, c2] ∧
      res.out = buf ++ (s1.text ++ s2.text)) ∧
  (s1.err = none → s2.err = none →
      res.proc.trace = p.trace ++ [c1, c2, c3] ∧
      res.out = buf ++ (s1.text ++ s2.text ++ s3.text))

/-! ## A scripted system, for concrete runs -/

/-- A world for concrete runs: a clock tick, the marker files present, and the
commands that fail. -/
structure Script where
  tick : Nat
  files : List String
  failing : List Command

/-- A deterministic system over `Script`: the clock advances at each reading,
every command prints its own name, and the scripted commands fail. -/
def scripted : Sys Script where
  now w := ([chr 't', Fin.ofNat (48 + w.tick)], { w with tick := w.tick + 1 })
  combinedOutput c w :=
    ((str c.name, if c ∈ w.failing then some "exit status 1" else none), w)
  stat f w := if f ∈ w.files then none else some "no such file or directory"

/-- The common shape of the two strategies: three commands, each gated on the
success of the one before, the first two failing as NotApplicable and the third
as Fail. -/
def runThree {σ : Type} (sys : Sys σ) (c1 c2 c3 : Command) (buf : GoString)
    (p : Proc σ) : Result σ :=
  let r1 := RunCommand sys buf p c1.name c1.args
  match r1.err with
  | some e => ⟨STATUS_NA, r1.buf, some e, r1.proc⟩
  | none =>
    let r2 := RunCommand sys r1.buf r1.proc c2.name c2.args
    match r2.err with
    | some e => ⟨STATUS_NA, r2.buf, some e, r2.proc⟩
    | none =>
      let r3 := RunCommand sys r2.buf r2.proc c3.name c3.args
      match r3.err with
      | some e => ⟨STATUS_FAIL, r3.buf, some e, r3.proc⟩
      | none => ⟨STATUS_SUCCESS, r3.buf, none, r3.proc⟩

/-- The commands a run started, given the process state it began from. -/
def started {σ : Type} (p : Proc σ) (res : Result σ) : List Command :=
  res.proc.trace.drop p.trace.length

/-- The three log sections of commands `c1 c2 c3` run in order from world `w`. -/
def threeSections {σ : Type} (sys : Sys σ) (c1 c2 c3 : Command) (w : σ) : GoString :=
  let s1 := stepOf sys c1 w
  let s2 := stepOf sys c2 s1.world
  let s3 := stepOf sys c3 s2.world
  s1.text ++ s2.text ++ s3.text

/-- Every command of `c1 c2 c3` run in order from world `w` exits without
error. -/
def allSucceed {σ : Type} (sys : Sys σ) (c1 c2 c3 : Command) (w : σ) : Prop :=
  let s1 := stepOf sys c1 w
  let s2 := stepOf sys c2 s1.world
  let s3 := stepOf sys c3 s2.world
  s1.err = none ∧ s2.err = none ∧ s3.err = none

/-- Of `c1 c2 c3` run in order from world `w`, the first two exit without
error and the third fails. -/
def onlyThirdFails {σ : Type} (sys : Sys σ) (c1 c2 c3 : Command) (w : σ) : Prop :=
  let s1 := stepOf sys c1 w
  let s2 := stepOf sys c2 s1.world
  let s3 := stepOf sys c3 s2.world
  s1.err = none ∧ s2.err = none ∧ s3.err ≠ none

/-! ## `net/url` of the Go standard library, as the program uses it

`url.QueryEscape`, `url.QueryUnescape`, `url.Values.Encode` and
`url.ParseQuery`, all in the mode `encodeQueryComponent`. -/

def upperhex : GoString := str "0123456789ABCDEF"

/-- `shouldEscape(c, encodeQueryComponent)`: only ASCII letters, digits and
`-_.~` are left alone; the reserved characters and everything else are
escaped. -/
def shouldEscape (c : Byte) : Bool :=
  if (chr 'a' ≤ c ∧ c ≤ chr 'z') ∨ (chr 'A' ≤ c ∧ c ≤ chr 'Z') ∨
      (chr '0' ≤ c ∧ c ≤ chr '9') then false
  else if c = chr '-' ∨ c = chr '_' ∨ c = chr '.' ∨ c = chr '~' then false
  else true

/-- The hex digit `upperhex[c>>4]`. -/
def hexHi (c : Byte) : Byte := upperhex.getD (c.val >>> 4) 0

/-- The hex digit `upperhex[c&15]`. -/
def hexLo (c : Byte) : Byte := upperhex.getD (c.val &&& 15) 0

/-- The bytes `escape` writes for one input byte: `+` for a space, `%XX` for an
escaped byte, the byte itself otherwise. -/
def escapeByte (c : Byte) : GoString :=
  if c = chr ' ' then [chr '+']
  else if shouldEscape c then
    [chr '%', hexHi c, hexLo c]
  else [c]

/-- `url.QueryEscape(s)`. The counting pass and the two fast paths of `escape`
only avoid allocation; the result is the byte-wise translation. -/
def QueryEscape (s : GoString) : GoString := s.flatMap escapeByte

def ishex (c : Byte) : Bool :=
  if chr '0' ≤ c ∧ c ≤ chr '9' then true
  else if chr 'a' ≤ c ∧ c ≤ chr 'f' then true
  else if chr 'A' ≤ c ∧ c ≤ chr 'F' then true
  else false

def unhex (c : Byte) : Byte :=
  if chr '0' ≤ c ∧ c ≤ chr '9' then c - chr '0'
  else if chr 'a' ≤ c ∧ c ≤ chr 'f' then c - chr 'a' + 10
  else if chr 'A' ≤ c ∧ c ≤ chr 'F' then c - chr 'A' + 10
  else 0

/-- `url.QueryUnescape(s)`: `%XX` becomes the byte, `+` a space; a `%` not
followed by two hex digits is an `EscapeError` carrying the offending bytes.
The validating pass and the building pass of `unescape` are fused. -/
def QueryUnescape : GoString → Except GoString GoString
  | [] => .ok []
  | c :: rest =>
    if c = chr '%' then
      match rest with
      | h1 :: h2 :: rest2 =>
        if ishex h1 && ishex h2 then
          match QueryUnescape rest2 with
          | .ok t => .ok ((unhex h1 <<< 4 ||| unhex h2) :: t)
          | .error e => .error e
        else .error (c :: rest.take 2)
      | _ => .error (c :: rest.take 2)
    else if c = chr '+' then
      match QueryUnescape rest with
      | .ok t => .ok (chr ' ' :: t)
      | .error e => .error e
    else
      match QueryUnescape rest with
      | .ok t => .ok (c :: t)
      | .error e => .error e

/-- A `url.Values`, a Go `map[string][]string`: keys are pairwise distinct and
their order in the list carries no meaning. -/
abbrev Values := List (GoString × List GoString)

/-- The map lookup `v[key]` (nil when absent). -/
def Values.lookup (v : Values) (key : GoString) : List GoString :=
  match v with
  | [] => []
  | (k, vs) :: rest => if k = key then vs else Values.lookup rest key

/-- `v.Get(key)`: the first value of the key, or the empty string. -/
def Values.Get (v : Values) (key : GoString) : GoString :=
  match Values.lookup v key with
  | [] => []
  | x :: _ => x

/-- The map update `m[key] = append(m[key], value)`. -/
def Values.append (v : Values) (key value : GoString) : Values :=
  match v with
  | [] => [(key, [value])]
  | (k, vs) :: rest =>
    if k = key then (k, vs ++ [value]) :: rest else (k, vs) :: Values.append rest key value

/-- Byte-wise lexicographic `a < b` on Go strings. -/
def strLess : GoString → GoString → Bool
  | [], [] => false
  | [], _ :: _ => true
  | _ :: _, [] => false
  | a :: as, b :: bs => if a < b then true else if b < a then false else strLess as bs

/-- Insert a key into an ascending list of keys. -/
def insertKey (k : GoString) : List GoString → List GoString
  | [] => [k]
  | x :: xs => if strLess x k then x :: insertKey k xs else k :: x :: xs

/-- `slices.Sort(keys)`: the keys in ascending byte order. -/
def sortKeys (keys : List GoString) : List GoString := keys.foldr insertKey []

/-- The inner loop of `Values.Encode` for one key: `key=value` for each of its
values, with `&` before every pair but the first of the whole output. -/
def encodeKey (keyEscaped : GoString) (vs : List GoString) (buf : GoString) : GoString :=
  vs.foldl (fun buf v =>
    (if buf.length > 0 then buf ++ [chr '&'] else buf) ++ keyEscaped ++ [chr '='] ++
      QueryEscape v) buf

/-- `v.Encode()`: "URL encoded" form sorted by key. -/
def Values.Encode (v : Values) : GoString :=
  (sortKeys (v.map Prod.fst)).foldl
    (fun buf k => encodeKey (QueryEscape k) (Values.lookup v k) buf) []

/-- `strings.Cut(s, sep)` for a one-byte separator: the text before the first
`sep`, the text after it, and whether `sep` was found. -/
def cut (sep : Byte) : GoString → GoString × GoString × Bool
  | [] => ([], [], false)
  | c :: rest =>
    if c = sep then ([], rest, true)
    else
      let r := cut sep rest
      (c :: r.1, r.2.1, r.2.2)

/-- The loop of `parseQuery(m, query)`; `fuel` bounds the number of
iterations, each of which shortens `query`. A segment holding `;` is rejected,
as current Go does; older releases split at `;` as well, and the encoder never
writes one unescaped. -/
def parseQueryLoop : Nat → Values → Option Error → GoString → Option (Values × Option Error)
  | 0, m, err, query => if query = [] then some (m, err) else none
  | fuel + 1, m, err, query =>
    if query = [] then some (m, err)
    else
      let c := cut (chr '&') query
      let key := c.1
      let query := c.2.1
      if chr ';' ∈ key then
        parseQueryLoop fuel m (some "invalid semicolon separator in query") query
      else if key = [] then parseQueryLoop fuel m err query
      else
        let kv := cut (chr '=') key
        match QueryUnescape kv.1 with
        | .error _ =>
          parseQueryLoop fuel m (if err = none then some "invalid URL escape" else err) query
        | .ok key1 =>
          match QueryUnescape kv.2.1 with
          | .error _ =>
            parseQueryLoop fuel m (if err = none then some "invalid URL escape" else err) query
          | .ok value => parseQueryLoop fuel (Values.append m key1 value) err query

/-- `url.ParseQuery(query)`: the values parsed and the first error met. The
result is `none` only if the loop bound were too small, which the length of
the query rules out. -/
def ParseQuery (query : GoString) : Option (Values × Option Error) :=
  parseQueryLoop query.length [] none query

/-! ## The client's report (`ukigumo-client.go`, `main`, lines 143-183) -/

/-- What `http.PostForm` hands to the transport: the URL, the content type and
the form, whose encoding is the request body. -/
structure PostRequest where
  url : GoString
  contentType : String
  form : Values
  body : GoString

/-- An HTTP response, as far as the program could look at it. -/
structure HttpResponse where
  statusCode : Nat
  deriving DecidableEq, Repr

/-- The HTTP transport: for a request, either a transport error or the
response of the server, whatever its status code. -/
abbrev Transport := PostRequest → Except Error HttpResponse

/-- `http.PostForm(url, data)`: a POST of `data.Encode()` with the form content
type. It returns an error only when no response was obtained; a response with
a non-2xx status code is not an error. -/
def PostForm (net : Transport) (url : GoString) (data : Values) :
    PostRequest × Except Error HttpResponse :=
  let req : PostRequest := ⟨url, "application/x-www-form-urlencoded", data, Values.Encode data⟩
  (req, net req)

/-- How an invocation of `main` ends. -/
inductive Exit where
  | returned
  | fatal (msg : Error)
  deriving DecidableEq, Repr

/-- The outcome of the reporting part of `main`. -/
structure Reported where
  request : PostRequest
  exit : Exit

/-- The tail of the client's `main` after `RunTests` has returned
`(status, out, err)`: post the report, `log.Fatal` on a PostForm error, print
the response otherwise. -/
def mainReport (net : Transport) (endpoint project : GoString)
    (status : String) (out : GoString) (err : Option Error) : Reported :=
  match err with
  | none =>
    let r := PostForm net endpoint
      [(str "status", [str status]),
       (str "project", [project]),
       (str "branch", [str "master"]),
       (str "vc_log", [str ""]),
       (str "body", [out]),
       (str "revision", [str "1"]),
       (str "repo", [str "http://example.com"])]
    match r.2 with
    | .error e => ⟨r.1, .fatal e⟩
    | .ok _ => ⟨r.1, .returned⟩
  | some _ =>
    let r := PostForm net endpoint
      [(str "status", [str status]),
       (str "project", [project]),
       (str "branch", [str "master"]),
       (str "vc_log", [str ""]),
       (str "body", [out]),
       (str "revision", [str "1"]),
       (str "repo", [str "http://example.com"])]
    match r.2 with
    | .error e => ⟨r.1, .fatal e⟩
    | .ok _ => ⟨r.1, .returned⟩

/-- Whether an HTTP status code is a success status (2xx). -/
def isSuccessStatus (code : Nat) : Bool := decide (200 ≤ code ∧ code < 300)

/-! ## `path.Clean` and `path.Join` of the Go standard library -/

/-- The inner loop of the `..` case of `Clean`, after `out.w--`:
`for out.w > dotdot && out.index(out.w) != '/' { out.w-- }`, returning the
final `out.w`. -/
def backUp (buf : GoString) (dotdot : Nat) : Nat → Nat
  | 0 => 0
  | w + 1 =>
    if w + 1 > dotdot ∧ buf.getD (w + 1) 0 ≠ chr '/' then backUp buf dotdot w else w + 1

/-- The copy loop of the default case of `Clean`:
`for ; r < n && path[r] != '/'; r++ { out.append(path[r]) }`, on the part of
the path from `r` on; it returns the output and the rest of the path. -/
def copyElem : GoString → GoString → GoString × GoString
  | [], out => (out, [])
  | c :: rest, out => if c = chr '/' then (out, c :: rest) else copyElem rest (out ++ [c])

/-- The main loop `for r < n` of `Clean`, on the part of the path from `r` on;
`out` is the output written so far (`out.w` is its length). `fuel` bounds the
number of iterations, each of which consumes at least one byte. -/
def cleanLoop (rooted : Bool) : Nat → GoString → GoString → Nat → Option GoString
  | _, [], out, _ => some out
  | 0, _ :: _, _, _ => none
  | fuel + 1, c :: rest, out, dotdot =>
    if c = chr '/' then
      -- empty path element
      cleanLoop rooted fuel rest out dotdot
    else if c = chr '.' ∧ (rest = [] ∨ rest.head? = some (chr '/')) then
      -- . element
      cleanLoop rooted fuel rest out dotdot
    else if c = chr '.' ∧ rest.head? = some (chr '.') ∧
        (rest.tail = [] ∨ rest.tail.head? = some (chr '/')) then
      -- .. element: remove to last /
      if out.length > dotdot then
        cleanLoop rooted fuel rest.tail (out.take (backUp out dotdot (out.length - 1))) dotdot
      else if !rooted then
        let out1 := (if out.length > 0 then out ++ [chr '/'] else out) ++ [chr '.', chr '.']
        cleanLoop rooted fuel rest.tail out1 out1.length
      else
        cleanLoop rooted fuel rest.tail out dotdot
    else
      -- real path element: add slash if needed, copy element
      let out1 :=
        if (rooted ∧ out.length ≠ 1) ∨ (!rooted ∧ out.length ≠ 0) then out ++ [chr '/'] else out
      let r := copyElem (c :: rest) out1
      cleanLoop rooted fuel r.2 r.1 dotdot

/-- `path.Clean(path)`: the shortest equivalent path by lexical processing.
The result is `none` only if the loop bound were too small. -/
def Clean (path : GoString) : Option GoString :=
  if path = [] then some (str ".")
  else
    let rooted := decide (path.head? = some (chr '/'))
    let r :=
      if rooted then cleanLoop rooted path.length path.tail [chr '/'] 1
      else cleanLoop rooted path.length path [] 0
    match r with
    | none => none
    | some out => if out.length = 0 then some (str ".") else some out

/-- The loop of `path.Join` that glues the elements with `/`, leaving out
empty elements as long as nothing has been written. -/
def joinElems : List GoString → GoString → GoString
  | [], buf => buf
  | e :: rest, buf =>
    if buf.length > 0 ∨ e ≠ [] then
      joinElems rest ((if buf.length > 0 then buf ++ [chr '/'] else buf) ++ e)
    else joinElems rest buf

/-- `path.Join(elem...)`: join with slashes and clean; empty if all elements
are empty. -/
def Join (elem : List GoString) : Option GoString :=
  if (elem.map List.length).sum = 0 then some []
  else Clean (joinElems elem [])

/-! ## The agent (`ukigumo-agent.go`) -/

/-- The directory `runWorker` works in:
`path.Join(workDir, url.QueryEscape(repository), url.QueryEscape(branch))`. -/
def tmpdir (workDir repository branch : GoString) : Option GoString :=
  Join [workDir, QueryEscape repository, QueryEscape branch]

/-- What `runWorker` does to the file system and which command it starts. -/
inductive WorkerAction where
  | removeAll (dir : GoString)
  | mkdirAll (dir : GoString)
  | gitClone (branch repository dir : GoString)
  deriving DecidableEq

/-- `runWorker(repository, branch)` up to the clone: remove the working
directory and everything below it, create it again, clone into it. -/
def runWorker (workDir repository branch : GoString) : Option (List WorkerAction) :=
  match tmpdir workDir repository branch with
  | none => none
  | some dir => some [.removeAll dir, .mkdirAll dir, .gitClone branch repository dir]

/-- The values a `Response` of the agent holds. -/
inductive JValue where
  | bool (b : Bool)
  | string (s : GoString)
  deriving DecidableEq

/-- The type `Response`, a Go `map[string]interface{}`. -/
abbrev Response := List (GoString × JValue)

/-- The map lookup of a `Response`. -/
def Response.lookup (r : Response) (key : GoString) : Option JValue :=
  match r with
  | [] => none
  | (k, v) :: rest => if k = key then some v else Response.lookup rest key

def lowerhex : GoString := str "0123456789abcdef"

/-- The bytes `encoding/json` writes for one byte of a string, with HTML
escaping on, as `json.Marshal` has it. Bytes from 0x80 on are copied: the
strings of the program are ASCII literals, and the treatment of multi-byte
runes is left out. -/
def jsonByte (b : Byte) : GoString :=
  if b = chr '\x5c' ∨ b = chr '\x22' then [chr '\x5c', b]
  else if b = chr '\x0a' then str "\\n"
  else if b = chr '\x0d' then str "\\r"
  else if b = chr '\x09' then str "\\t"
  else if b < 0x20 ∨ b = chr '<' ∨ b = chr '>' ∨ b = chr '&' then
    str "\\u00" ++ [lowerhex.getD (b.val >>> 4) 0, lowerhex.getD (b.val &&& 15) 0]
  else [b]

/-- A JSON string literal. -/
def jsonString (s : GoString) : GoString := [chr '\x22'] ++ s.flatMap jsonByte ++ [chr '\x22']

/-- The encoding of one value. -/
def jsonValue : JValue → GoString
  | .bool true => str "true"
  | .bool false => str "false"
  | .string s => jsonString s

/-- The members of a JSON object, for keys already sorted, separated by
commas. -/
def jsonMembers (r : Response) : List GoString → GoString
  | [] => []
  | [k] => jsonString k ++ [chr ':'] ++ jsonValue ((Response.lookup r k).getD (.bool false))
  | k :: k2 :: ks =>
    jsonString k ++ [chr ':'] ++ jsonValue ((Response.lookup r k).getD (.bool false)) ++
      [chr ','] ++ jsonMembers r (k2 :: ks)

/-- `json.Marshal` of a `Response`: a JSON object whose members are written in
ascending order of their keys. No value of the modelled types makes it
fail. -/
def jsonMarshal (r : Response) : Except Error GoString :=
  .ok ([chr '\x7b'] ++ jsonMembers r (sortKeys (r.map Prod.fst)) ++ [chr '\x7d'])

/-- `Response.String()`: the JSON text, or the empty string if marshalling
fails. -/
def Response.String (r : Response) : GoString :=
  match jsonMarshal r with
  | .error _ => []
  | .ok b => b

/-- A request, through `r.FormValue(key)`. -/
structure Request where
  formValue : GoString → GoString

/-- What the enqueue handler leaves behind: the headers set, the body written
and the `runWorker` goroutines started, as (repository, branch). -/
structure Reply where
  header : List (String × String)
  body : GoString
  workers : List (GoString × GoString)

/-- `enqueueHandler(w, r)`. -/
def enqueueHandler (r : Request) : Reply :=
  let repository := r.formValue (str "repository")
  let branch := r.formValue (str "branch")
  if repository.length = 0 then
    ⟨[("Content-Type", "application/json; charset=utf-8")],
     Response.String [(str "success", .bool false),
       (str "message", .string (str "Missing mandatory parameter: repository"))],
     []⟩
  else
    let branch := if branch.length = 0 then str "master" else branch
    ⟨[("Content-Type", "application/json; charset=utf-8")],
     Response.String [(str "success", .bool true), (str "message", .string (str "enqueued."))],
     [(repository, branch)]⟩

/-! ## Checks on single bytes, decided by enumeration -/

/-- No byte of `s` is one of the separators `&`, `=`, `;` of a query. -/
def sepFree (s : GoString) : Bool :=
  s.all (fun x => x != chr '&' && x != chr '=' && x != chr ';')

/-- The three shapes of `escapeByte c`, each with what `QueryUnescape` needs to
read it back. -/
def escapeByteReadable (c : Byte) : Bool :=
  (c == chr ' ' && escapeByte c == [chr '+']) ||
    (c != chr '%' && c != chr '+' && escapeByte c == [c]) ||
    (ishex (hexHi c) && ishex (hexLo c) && (unhex (hexHi c) <<< 4 ||| unhex (hexLo c)) == c &&
      escapeByte c == [chr '%', hexHi c, hexLo c])

/-- One `key=value` pair as `Values.Encode` writes it. -/
def encodePair (key value : GoString) : GoString :=
  QueryEscape key ++ chr '=' :: QueryEscape value

/-- The form the client posts, as a function of the run's result. -/
def reportForm (status project out : GoString) : Values :=
  [(str "status", [status]), (str "project", [project]), (str "branch", [str "master"]),
   (str "vc_log", [[]]), (str "body", [out]), (str "revision", [str "1"]),
   (str "repo", [str "http://example.com"])]

/-- The form a collector decodes from the client's request body, whose keys
come in the order of the encoding. -/
def decodedForm (status project out : GoString) : Values :=
  [(str "body", [out]), (str "branch", [str "master"]), (str "project", [project]),
   (str "repo", [str "http://example.com"]), (str "revision", [str "1"]),
   (str "status", [status]), (str "vc_log", [[]])]

/-! ## Reading a reply body as JSON

What a client of the agent gets from a reply body: the JSON object it denotes
(RFC 8259), in which the order of the members carries no meaning. The reader
covers the objects the agent writes: string keys, string and boolean
values. -/

/-- Skip JSON white space: space, tab, line feed, carriage return. -/
def skipWs : GoString → GoString
  | [] => []
  | c :: rest =>
    if c = chr ' ' ∨ c = chr '\x09' ∨ c = chr '\x0a' ∨ c = chr '\x0d' then skipWs rest
    else c :: rest

/-- The byte a two-character escape stands for (`\"`, `\\`, `\/`, `\b`, `\f`,
`\n`, `\r`, `\t`). -/
def unescapeChar (e : Byte) : Option Byte :=
  if e = chr '\x22' ∨ e = chr '\x5c' ∨ e = chr '/' then some e
  else if e = chr 'b' then some 8
  else if e = chr 'f' then some 12
  else if e = chr 'n' then some 10
  else if e = chr 'r' then some 13
  else if e = chr 't' then some 9
  else none

/-- Read a JSON string after its opening quote: the bytes it denotes and the
text after the closing quote. A `\u` escape is read for code points below
0x80; control bytes and other escapes are refused. -/
def jsonReadString : GoString → Option (GoString × GoString)
  | [] => none
  | c :: rest =>
    if c = chr '\x22' then some ([], rest)
    else if c = chr '\x5c' then
      match rest with
      | e :: a :: b :: h1 :: h2 :: rest2 =>
        if e = chr 'u' then
          if a = chr '0' ∧ b = chr '0' ∧ ishex h1 ∧ ishex h2 ∧ unhex h1 < 8 then
            match jsonReadString rest2 with
            | some r => some ((unhex h1 <<< 4 ||| unhex h2) :: r.1, r.2)
            | none => none
          else none
        else
          match unescapeChar e, jsonReadString (a :: b :: h1 :: h2 :: rest2) with
          | some x, some r => some (x :: r.1, r.2)
          | _, _ => none
      | e :: rest1 =>
        match unescapeChar e, jsonReadString rest1 with
        | some x, some r => some (x :: r.1, r.2)
        | _, _ => none
      | [] => none
    else if c < 0x20 then none
    else
      match jsonReadString rest with
      | some r => some (c :: r.1, r.2)
      | none => none

/-- Read a JSON value, a string or a boolean, and return the text after it. -/
def jsonReadValue (s : GoString) : Option (JValue × GoString) :=
  if (str "true").isPrefixOf s then some (.bool true, s.drop 4)
  else if (str "false").isPrefixOf s then some (.bool false, s.drop 5)
  else
    match s with
    | c :: rest =>
      if c = chr '\x22' then
        match jsonReadString rest with
        | some r => some (.string r.1, r.2)
        | none => none
      else none
    | [] => none

/-- Set a member of an object; a repeated name keeps its last value. -/
def Response.set (r : Response) (key : GoString) (v : JValue) : Response :=
  match r with
  | [] => [(key, v)]
  | (k, x) :: rest => if k = key then (k, v) :: rest else (k, x) :: Response.set rest key v

/-- Read the members of an object after its opening brace, up to and including
the closing brace; `fuel` bounds the number of members. -/
def jsonReadMembers : Nat → GoString → Response → Option (Response × GoString)
  | 0, _, _ => none
  | fuel + 1, s, acc =>
    match skipWs s with
    | q :: rest =>
      if q = chr '\x22' then
        match jsonReadString rest with
        | some k =>
          match skipWs k.2 with
          | colon :: rest2 =>
            if colon = chr ':' then
              match jsonReadValue (skipWs rest2) with
              | some v =>
                match skipWs v.2 with
                | sep :: rest3 =>
                  if sep = chr ',' then jsonReadMembers fuel rest3 (Response.set acc k.1 v.1)
                  else if sep = chr '\x7d' then some (Response.set acc k.1 v.1, rest3)
                  else none
                | [] => none
              | none => none
            else none
          | [] => none
        | none => none
      else none
    | [] => none

/-- The JSON object a text denotes, if it is one: its members by name. -/
def jsonDecodeObject (text : GoString) : Option Response :=
  match skipWs text with
  | open1 :: rest =>
    if open1 = chr '\x7b' then
      match skipWs rest with
      | close1 :: rest1 =>
        if close1 = chr '\x7d' then (if skipWs rest1 = [] then some [] else none)
        else
          match jsonReadMembers text.length rest [] with
          | some r => if skipWs r.2 = [] then some r.1 else none
          | none => none
      | [] => none
    else none
  | [] => none

/-- Every member of `a` is a member of `b` with the same value. -/
def Response.included (a b : Response) : Bool :=
  a.all (fun kv => Response.lookup b kv.1 == some kv.2)

/-- Two texts are the same JSON: both denote an object, with the same members,
in whatever order they are written. -/
def sameJSON (a b : GoString) : Bool :=
  match jsonDecodeObject a, jsonDecodeObject b with
  | some x, some y => Response.included x y && Response.included y x
  | _, _ => false

/-! ## Theorems -/

theorem RunBuildPL_eq_runThree {σ : Type} (sys : Sys σ) (buf : GoString) (p : Proc σ) :
    RunBuildPL sys buf p =
      runThree sys ⟨"perl", ["Build.PL"]⟩ ⟨"./Build", []⟩ ⟨"./Build", ["test"]⟩ buf p := rfl

theorem RunMakefilePL_eq_runThree {σ : Type} (sys : Sys σ) (buf : GoString) (p : Proc σ) :
    RunMakefilePL sys buf p =
      runThree sys ⟨"perl", ["Makefile.PL"]⟩ ⟨"make", []⟩ ⟨"make", ["test"]⟩ buf p := rfl

theorem runThree_classified {σ : Type} (sys : Sys σ) (c1 c2 c3 : Command)
    (buf : GoString) (p : Proc σ) :
    ClassifiedAs sys c1 c2 c3 p (runThree sys c1 c2 c3 buf p) := by
  simp only [ClassifiedAs, runThree, RunCommand, stepOf]
  rcases h1 : (sys.combinedOutput c1 (sys.now p.world).2).1.2 with _ | e1
  · rcases h2 : (sys.combinedOutput c2
        (sys.now (sys.combinedOutput c1 (sys.now p.world).2).2).2).1.2 with _ | e2
    · rcases h3 : (sys.combinedOutput c3 (sys.now (sys.combinedOutput c2
          (sys.now (sys.combinedOutput c1 (sys.now p.world).2).2).2).2).2).1.2 with _ | e3
      · simp [h1, h2, h3, STATUS_SUCCESS]
      · simp [h1, h2, h3, STATUS_FAIL]
    · simp [h1, h2, STATUS_NA]
  · simp [h1, STATUS_NA]

theorem runThree_ran {σ : Type} (sys : Sys σ) (c1 c2 c3 : Command)
    (buf : GoString) (p : Proc σ) :
    RanUpToFirstFailure sys c1 c2 c3 buf p (runThree sys c1 c2 c3 buf p) := by
  simp only [RanUpToFirstFailure, runThree, RunCommand, stepOf, Step.text]
  rcases h1 : (sys.combinedOutput c1 (sys.now p.world).2).1.2 with _ | e1
  · rcases h2 : (sys.combinedOutput c2
        (sys.now (sys.combinedOutput c1 (sys.now p.world).2).2).2).1.2 with _ | e2
    · rcases h3 : (sys.combinedOutput c3 (sys.now (sys.combinedOutput c2
          (sys.now (sys.combinedOutput c1 (sys.now p.world).2).2).2).2).2).1.2 with _ | e3
      · simp [h1, h2, h3]
      · simp [h1, h2, h3]
    · simp [h1, h2]
  · simp [h1]

/-- C1: both strategies classify every combination of command outcomes as the
status table says: step 1 or step 2 failing gives NotApplicable "3" with that
step's error, step 3 failing gives Fail "2" with its error, all succeeding
gives Success "1" with a nil error; the error is nil exactly for Success. -/
theorem strategies_classified {σ : Type} (sys : Sys σ) (buf : GoString) (p : Proc σ) :
    ClassifiedAs sys ⟨"perl", ["Build.PL"]⟩ ⟨"./Build", []⟩ ⟨"./Build", ["test"]⟩ p
      (RunBuildPL sys buf p) ∧
    ClassifiedAs sys ⟨"perl", ["Makefile.PL"]⟩ ⟨"make", []⟩ ⟨"make", ["test"]⟩ p
      (RunMakefilePL sys buf p) :=
  ⟨RunBuildPL_eq_runThree sys buf p ▸ runThree_classified sys _ _ _ buf p,
   RunMakefilePL_eq_runThree sys buf p ▸ runThree_classified sys _ _ _ buf p⟩

/-- C2: whenever `.ukigumo.yml` exists, whatever else exists, RunTests returns
NotApplicable "3" with the not-supported error, starts no command and returns
an empty log. -/
theorem RunTests_ukigumo_yml {σ : Type} (sys : Sys σ) (p : Proc σ)
    (h : sys.stat ".ukigumo.yml" p.world = none) :
    (RunTests sys p).status = "3" ∧
    (RunTests sys p).err = some ".ukigumo.yml is not supported yet" ∧
    (RunTests sys p).proc.trace = p.trace ∧
    (RunTests sys p).proc.world = p.world ∧
    (RunTests sys p).out = [] := by
  simp [RunTests, h, STATUS_NA, errUkigumoYml]

theorem RunTests_ukigumo_yml_witness :
    (RunTests scripted ⟨⟨0, [".ukigumo.yml", "Build.PL", "Makefile.PL"], []⟩, []⟩).status = "3" ∧
    (RunTests scripted ⟨⟨0, [".ukigumo.yml", "Build.PL", "Makefile.PL"], []⟩, []⟩).proc.trace = [] :=
  have h := RunTests_ukigumo_yml scripted
    ⟨⟨0, [".ukigumo.yml", "Build.PL", "Makefile.PL"], []⟩, []⟩ (by decide)
  ⟨h.1, h.2.2.1⟩

/-- C4: with none of the three marker files, RunTests returns NotApplicable
"3" with the unknown-project-type error, starts no command and returns an
empty log. -/
theorem RunTests_no_marker {σ : Type} (sys : Sys σ) (p : Proc σ)
    (h1 : sys.stat ".ukigumo.yml" p.world ≠ none)
    (h2 : sys.stat "Build.PL" p.world ≠ none)
    (h3 : sys.stat "Makefile.PL" p.world ≠ none) :
    (RunTests sys p).status = "3" ∧
    (RunTests sys p).err =
      some "Unknown project type. There is no .ukigumo.yml, Makefile.PL or Build.PL." ∧
    (RunTests sys p).proc.trace = p.trace ∧
    (RunTests sys p).proc.world = p.world ∧
    (RunTests sys p).out = [] := by
  simp [RunTests, h1, h2, h3, STATUS_NA, errUnknownProject]

theorem RunTests_no_marker_witness :
    (RunTests scripted ⟨⟨0, ["README"], []⟩, []⟩).status = "3" ∧
    (RunTests scripted ⟨⟨0, ["README"], []⟩, []⟩).out = [] :=
  have h := RunTests_no_marker scripted ⟨⟨0, ["README"], []⟩, []⟩
    (by decide) (by decide) (by decide)
  ⟨h.1, h.2.2.2.2⟩

theorem runThree_trace {σ : Type} (sys : Sys σ) (c1 c2 c3 : Command)
    (buf : GoString) (p : Proc σ) :
    ∃ n, 1 ≤ n ∧ (runThree sys c1 c2 c3 buf p).proc.trace = p.trace ++ [c1, c2, c3].take n := by
  simp only [runThree, RunCommand]
  rcases h1 : (sys.combinedOutput c1 (sys.now p.world).2).1.2 with _ | e1
  · rcases h2 : (sys.combinedOutput c2
        (sys.now (sys.combinedOutput c1 (sys.now p.world).2).2).2).1.2 with _ | e2
    · refine ⟨3, by decide, ?_⟩
      rcases h3 : (sys.combinedOutput c3 (sys.now (sys.combinedOutput c2
          (sys.now (sys.combinedOutput c1 (sys.now p.world).2).2).2).2).2).1.2 with _ | e3 <;>
        simp [h1, h2, h3]
    · exact ⟨2, by decide, by simp [h1, h2]⟩
  · exact ⟨1, by decide, by simp [h1]⟩

theorem runThree_started_subset {σ : Type} (sys : Sys σ) (c1 c2 c3 : Command)
    (buf : GoString) (p : Proc σ) :
    ∀ c ∈ started p (runThree sys c1 c2 c3 buf p), c ∈ [c1, c2, c3] := by
  obtain ⟨n, _, hn⟩ := runThree_trace sys c1 c2 c3 buf p
  intro c hc
  rw [started, hn, List.drop_left] at hc
  exact List.mem_of_mem_take hc

/-- C3: each strategy starts exactly the commands of its fixed list up to and
including the first failing one (all three if none fails), nothing after a
failure, and its log is the buffer it was given followed by exactly the
sections (marker, then output verbatim) of the commands it started, in order.
Hence through RunTests a Makefile.PL-only project whose `make test` fails is
Fail with the three sections `perl Makefile.PL`, `make`, `make test`, and a
Build.PL-only project whose steps all succeed is Success with three
sections. -/
theorem strategies_run_up_to_first_failure {σ : Type} (sys : Sys σ) (buf : GoString)
    (p : Proc σ) :
    RanUpToFirstFailure sys ⟨"perl", ["Build.PL"]⟩ ⟨"./Build", []⟩ ⟨"./Build", ["test"]⟩
      buf p (RunBuildPL sys buf p) ∧
    RanUpToFirstFailure sys ⟨"perl", ["Makefile.PL"]⟩ ⟨"make", []⟩ ⟨"make", ["test"]⟩
      buf p (RunMakefilePL sys buf p) ∧
    (sys.stat ".ukigumo.yml" p.world ≠ none → sys.stat "Build.PL" p.world ≠ none →
      sys.stat "Makefile.PL" p.world = none →
      onlyThirdFails sys ⟨"perl", ["Makefile.PL"]⟩ ⟨"make", []⟩ ⟨"make", ["test"]⟩ p.world →
      (RunTests sys p).status = "2" ∧
      started p (RunTests sys p) =
        [⟨"perl", ["Makefile.PL"]⟩, ⟨"make", []⟩, ⟨"make", ["test"]⟩] ∧
      (RunTests sys p).out =
        threeSections sys ⟨"perl", ["Makefile.PL"]⟩ ⟨"make", []⟩ ⟨"make", ["test"]⟩ p.world) ∧
    (sys.stat ".ukigumo.yml" p.world ≠ none → sys.stat "Build.PL" p.world = none →
      sys.stat "Makefile.PL" p.world ≠ none →
      allSucceed sys ⟨"perl", ["Build.PL"]⟩ ⟨"./Build", []⟩ ⟨"./Build", ["test"]⟩ p.world →
      (RunTests sys p).status = "1" ∧
      started p (RunTests sys p) =
        [⟨"perl", ["Build.PL"]⟩, ⟨"./Build", []⟩, ⟨"./Build", ["test"]⟩] ∧
      (RunTests sys p).out =
        threeSections sys ⟨"perl", ["Build.PL"]⟩ ⟨"./Build", []⟩ ⟨"./Build", ["test"]⟩ p.world) := by
  refine ⟨RunBuildPL_eq_runThree sys buf p ▸ runThree_ran sys _ _ _ buf p,
    RunMakefilePL_eq_runThree sys buf p ▸ runThree_ran sys _ _ _ buf p, ?_, ?_⟩
  · intro hy hb hm ⟨h1, h2, h3⟩
    have hr : RunTests sys p = RunMakefilePL sys [] p := by simp [RunTests, hy, hb, hm]
    have hran := runThree_ran sys ⟨"perl", ["Makefile.PL"]⟩ ⟨"make", []⟩ ⟨"make", ["test"]⟩ [] p
    have hcl := runThree_classified sys ⟨"perl", ["Makefile.PL"]⟩ ⟨"make", []⟩
      ⟨"make", ["test"]⟩ [] p
    rw [hr, RunMakefilePL_eq_runThree]
    obtain ⟨e, he⟩ := Option.ne_none_iff_exists'.mp h3
    refine ⟨(hcl.2.2.1 e h1 h2 he).1, ?_, ?_⟩
    · rw [started, (hran.2.2 h1 h2).1, List.drop_left]
    · rw [(hran.2.2 h1 h2).2]; rfl
  · intro hy hb _ ⟨h1, h2, h3⟩
    have hr : RunTests sys p = RunBuildPL sys [] p := by simp [RunTests, hy, hb]
    have hran := runThree_ran sys ⟨"perl", ["Build.PL"]⟩ ⟨"./Build", []⟩ ⟨"./Build", ["test"]⟩ [] p
    have hcl := runThree_classified sys ⟨"perl", ["Build.PL"]⟩ ⟨"./Build", []⟩
      ⟨"./Build", ["test"]⟩ [] p
    rw [hr, RunBuildPL_eq_runThree]
    refine ⟨(hcl.2.2.2.1 h1 h2 h3).1, ?_, ?_⟩
    · rw [started, (hran.2.2 h1 h2).1, List.drop_left]
    · rw [(hran.2.2 h1 h2).2]; rfl

/-- C5: detection has the fixed priority `.ukigumo.yml`, `Build.PL`,
`Makefile.PL` and runs one strategy: with `.ukigumo.yml` nothing is run;
without it, `Build.PL` present makes RunTests equal to RunBuildPL on an empty
buffer (no MakeMaker command is started even when `Makefile.PL` exists too),
and `Build.PL` absent with `Makefile.PL` present makes it equal to
RunMakefilePL on an empty buffer; the commands of one run all belong to one
strategy. -/
theorem RunTests_detection_priority {σ : Type} (sys : Sys σ) (p : Proc σ) :
    (sys.stat ".ukigumo.yml" p.world = none → started p (RunTests sys p) = []) ∧
    (sys.stat ".ukigumo.yml" p.world ≠ none → sys.stat "Build.PL" p.world = none →
      RunTests sys p = RunBuildPL sys [] p ∧
      ∀ c ∈ started p (RunTests sys p), c ∈ buildPLCommands ∧ c ∉ makefilePLCommands) ∧
    (sys.stat ".ukigumo.yml" p.world ≠ none → sys.stat "Build.PL" p.world ≠ none →
      sys.stat "Makefile.PL" p.world = none →
      RunTests sys p = RunMakefilePL sys [] p ∧
      ∀ c ∈ started p (RunTests sys p), c ∈ makefilePLCommands ∧ c ∉ buildPLCommands) ∧
    ((∀ c ∈ started p (RunTests sys p), c ∈ buildPLCommands) ∨
      (∀ c ∈ started p (RunTests sys p), c ∈ makefilePLCommands)) := by
  have hdisj : ∀ c ∈ buildPLCommands, c ∉ makefilePLCommands := by decide
  have hB : ∀ c ∈ started p (RunBuildPL sys [] p), c ∈ buildPLCommands :=
    RunBuildPL_eq_runThree sys [] p ▸ runThree_started_subset sys _ _ _ [] p
  have hM : ∀ c ∈ started p (RunMakefilePL sys [] p), c ∈ makefilePLCommands :=
    RunMakefilePL_eq_runThree sys [] p ▸ runThree_started_subset sys _ _ _ [] p
  refine ⟨?_, ?_, ?_, ?_⟩
  · intro hy
    simp [RunTests, hy, started]
  · intro hy hb
    have hr : RunTests sys p = RunBuildPL sys [] p := by simp [RunTests, hy, hb]
    exact ⟨hr, fun c hc => ⟨hB c (hr ▸ hc), hdisj c (hB c (hr ▸ hc))⟩⟩
  · intro hy hb hm
    have hr : RunTests sys p = RunMakefilePL sys [] p := by simp [RunTests, hy, hb, hm]
    exact ⟨hr, fun c hc => ⟨hM c (hr ▸ hc), fun h => hdisj c h (hM c (hr ▸ hc))⟩⟩
  · by_cases hy : sys.stat ".ukigumo.yml" p.world = none
    · left; simp [RunTests, hy, started]
    · by_cases hb : sys.stat "Build.PL" p.world = none
      · left
        have hr : RunTests sys p = RunBuildPL sys [] p := by simp [RunTests, hy, hb]
        exact fun c hc => hB c (hr ▸ hc)
      · by_cases hm : sys.stat "Makefile.PL" p.world = none
        · right
          have hr : RunTests sys p = RunMakefilePL sys [] p := by simp [RunTests, hy, hb, hm]
          exact fun c hc => hM c (hr ▸ hc)
        · left; simp [RunTests, hy, hb, hm, started]

/-! ### Query escaping round trip -/

set_option maxRecDepth 100000 in
theorem escapeByte_sepFree : ∀ c : Byte, sepFree (escapeByte c) = true := by
  decide!

set_option maxRecDepth 100000 in
theorem escapeByteReadable_all : ∀ c : Byte, escapeByteReadable c = true := by
  decide!

theorem QueryEscape_cons (c : Byte) (s : GoString) :
    QueryEscape (c :: s) = escapeByte c ++ QueryEscape s := by
  simp [QueryEscape]

theorem QueryEscape_sepFree (s : GoString) : sepFree (QueryEscape s) = true := by
  induction s with
  | nil => rfl
  | cons c s ih =>
    have hc := escapeByte_sepFree c
    rw [QueryEscape_cons]
    unfold sepFree at *
    rw [List.all_append, hc, ih]; rfl

theorem not_mem_of_sepFree {s : GoString} (h : sepFree s = true) :
    chr '&' ∉ s ∧ chr '=' ∉ s ∧ chr ';' ∉ s := by
  unfold sepFree at h
  rw [List.all_eq_true] at h
  refine ⟨fun hm => ?_, fun hm => ?_, fun hm => ?_⟩ <;>
    · have := h _ hm
      simp at this

theorem QueryUnescape_cons_plain (c : Byte) (rest : GoString) (h : c ≠ chr '%') :
    QueryUnescape (c :: rest) =
      match QueryUnescape rest with
      | .ok t => .ok ((if c = chr '+' then chr ' ' else c) :: t)
      | .error e => .error e := by
  rcases rest with _ | ⟨a, _ | ⟨b, r⟩⟩ <;>
    · conv_lhs => unfold QueryUnescape
      rw [if_neg h]
      by_cases hp : c = chr '+'
      · rw [if_pos hp, if_pos hp]
      · rw [if_neg hp, if_neg hp]

theorem QueryUnescape_escapeByte (c : Byte) (rest : GoString) :
    QueryUnescape (escapeByte c ++ rest) =
      match QueryUnescape rest with
      | .ok t => .ok (c :: t)
      | .error e => .error e := by
  have h := escapeByteReadable_all c
  simp only [escapeByteReadable, Bool.or_eq_true, Bool.and_eq_true, beq_iff_eq, bne_iff_ne,
    ne_eq] at h
  rcases h with (⟨hc, he⟩ | ⟨⟨hp, hq⟩, he⟩) | ⟨⟨⟨h1, h2⟩, hu⟩, he⟩
  · rw [he, hc]
    have h1 : chr '+' ≠ chr '%' := by decide
    show QueryUnescape (chr '+' :: rest) = _
    rw [QueryUnescape_cons_plain _ _ h1]
    simp only [if_true]
  · rw [he]
    show QueryUnescape (c :: rest) = _
    rw [QueryUnescape_cons_plain _ _ hp]
    simp only [hq, if_false]
  · rw [he]
    show QueryUnescape (chr '%' :: hexHi c :: hexLo c :: rest) = _
    rw [QueryUnescape]
    simp only [h1, h2, hu, if_true, Bool.and_self]

theorem QueryUnescape_QueryEscape (s : GoString) : QueryUnescape (QueryEscape s) = .ok s := by
  induction s with
  | nil => rfl
  | cons c s ih => rw [QueryEscape_cons, QueryUnescape_escapeByte, ih]

theorem cut_found (sep : Byte) (a rest : GoString) (h : sep ∉ a) :
    cut sep (a ++ sep :: rest) = (a, rest, true) := by
  induction a with
  | nil => simp [cut]
  | cons c a ih =>
    have hc : c ≠ sep := fun e => h (e ▸ List.mem_cons_self _ _)
    have ha : sep ∉ a := fun m => h (List.mem_cons_of_mem _ m)
    simp [cut, hc, ih ha]

theorem cut_not_found (sep : Byte) (a : GoString) (h : sep ∉ a) :
    cut sep a = (a, [], false) := by
  induction a with
  | nil => simp [cut]
  | cons c a ih =>
    have hc : c ≠ sep := fun e => h (e ▸ List.mem_cons_self _ _)
    have ha : sep ∉ a := fun m => h (List.mem_cons_of_mem _ m)
    simp [cut, hc, ih ha]

theorem encodePair_facts (key value : GoString) :
    chr '&' ∉ encodePair key value ∧ chr ';' ∉ encodePair key value ∧
    encodePair key value ≠ [] ∧
    cut (chr '=') (encodePair key value) = (QueryEscape key, QueryEscape value, true) := by
  obtain ⟨ka, ke, ks⟩ := not_mem_of_sepFree (QueryEscape_sepFree key)
  obtain ⟨va, _, vs⟩ := not_mem_of_sepFree (QueryEscape_sepFree value)
  have h1 : chr '&' ≠ chr '=' := by decide
  have h2 : chr ';' ≠ chr '=' := by decide
  refine ⟨?_, ?_, ?_, cut_found _ _ _ ke⟩
  · simp [encodePair, ka, va, h1]
  · simp [encodePair, ks, vs, h2]
  · simp [encodePair]

/-- One iteration of the parse loop on a pair followed by `&`. -/
theorem parseQueryLoop_pair_more (fuel : Nat) (m : Values) (err : Option Error)
    (key value rest : GoString) :
    parseQueryLoop (fuel + 1) m err (encodePair key value ++ chr '&' :: rest) =
      parseQueryLoop fuel (Values.append m key value) err rest := by
  obtain ⟨ha, hs, hne, hc⟩ := encodePair_facts key value
  have hq : encodePair key value ++ chr '&' :: rest ≠ [] := by simp
  rw [parseQueryLoop]
  simp only [hq, if_false, cut_found _ _ _ ha, hs, hne, hc, QueryUnescape_QueryEscape]

/-- The last iteration of the parse loop, on a pair that ends the query. -/
theorem parseQueryLoop_pair_last (fuel : Nat) (m : Values) (err : Option Error)
    (key value : GoString) :
    parseQueryLoop (fuel + 1) m err (encodePair key value) =
      some (Values.append m key value, err) := by
  obtain ⟨ha, hs, hne, hc⟩ := encodePair_facts key value
  rw [parseQueryLoop]
  simp only [hne, if_false, cut_not_found _ _ ha, hs, hc, QueryUnescape_QueryEscape]
  cases fuel <;> simp [parseQueryLoop]

/-! ### The client's form and its round trip -/

theorem reportForm_sortKeys (status project out : GoString) :
    sortKeys ((reportForm status project out).map Prod.fst) =
      [str "body", str "branch", str "project", str "repo", str "revision", str "status",
       str "vc_log"] := rfl

theorem encodeKey_single (k v buf : GoString) :
    encodeKey k [v] buf =
      (if buf.length > 0 then buf ++ [chr '&'] else buf) ++ k ++ [chr '='] ++ QueryEscape v := rfl

theorem Encode_reportForm (status project out : GoString) :
    Values.Encode (reportForm status project out) =
      encodePair (str "body") out ++ chr '&' ::
      (encodePair (str "branch") (str "master") ++ chr '&' ::
      (encodePair (str "project") project ++ chr '&' ::
      (encodePair (str "repo") (str "http://example.com") ++ chr '&' ::
      (encodePair (str "revision") (str "1") ++ chr '&' ::
      (encodePair (str "status") status ++ chr '&' ::
      encodePair (str "vc_log") []))))) := by
  have h1 : Values.lookup (reportForm status project out) (str "body") = [out] := rfl
  have h2 : Values.lookup (reportForm status project out) (str "branch") = [str "master"] := rfl
  have h3 : Values.lookup (reportForm status project out) (str "project") = [project] := rfl
  have h4 : Values.lookup (reportForm status project out) (str "repo") =
      [str "http://example.com"] := rfl
  have h5 : Values.lookup (reportForm status project out) (str "revision") = [str "1"] := rfl
  have h6 : Values.lookup (reportForm status project out) (str "status") = [status] := rfl
  have h7 : Values.lookup (reportForm status project out) (str "vc_log") = [[]] := rfl
  rw [Values.Encode, reportForm_sortKeys]
  simp only [List.foldl, h1, h2, h3, h4, h5, h6, h7, encodeKey_single]
  simp [encodePair]

theorem ParseQuery_Encode_reportForm (status project out : GoString) :
    ParseQuery (Values.Encode (reportForm status project out)) =
      some (decodedForm status project out, none) := by
  rw [Encode_reportForm, ParseQuery]
  generalize hE : encodePair (str "body") out ++ chr '&' ::
      (encodePair (str "branch") (str "master") ++ chr '&' ::
      (encodePair (str "project") project ++ chr '&' ::
      (encodePair (str "repo") (str "http://example.com") ++ chr '&' ::
      (encodePair (str "revision") (str "1") ++ chr '&' ::
      (encodePair (str "status") status ++ chr '&' ::
      encodePair (str "vc_log") []))))) = E
  obtain ⟨n, hn⟩ : ∃ n, E.length = n + 7 := by
    refine ⟨E.length - 7, ?_⟩
    have : 7 ≤ E.length := by
      rw [← hE]
      simp only [encodePair, List.length_append, List.length_cons]
      omega
    omega
  rw [hn, ← hE]
  rw [parseQueryLoop_pair_more, parseQueryLoop_pair_more, parseQueryLoop_pair_more,
    parseQueryLoop_pair_more, parseQueryLoop_pair_more, parseQueryLoop_pair_more,
    parseQueryLoop_pair_last]
  rfl

theorem decodedForm_lookup (status project out k : GoString) :
    Values.lookup (decodedForm status project out) k =
      Values.lookup (reportForm status project out) k := by
  simp only [decodedForm, reportForm, Values.lookup]
  split_ifs <;> first
    | rfl
    | (exfalso
       subst_vars
       simp +decide at *)

theorem mainReport_request (net : Transport) (endpoint project out : GoString)
    (status : String) (err : Option Error) :
    (mainReport net endpoint project status out err).request =
      ⟨endpoint, "application/x-www-form-urlencoded", reportForm (str status) project out,
        Values.Encode (reportForm (str status) project out)⟩ := by
  cases err with
  | none =>
    simp only [mainReport, PostForm]
    split <;> rfl
  | some e =>
    simp only [mainReport, PostForm]
    split <;> rfl

/-- C6: on the error path and on the no-error path alike, the form the client
posts has exactly the seven fields status, project, branch, vc_log, body,
revision, repo; the request body is its encoding; and decoding that body
gives back, without error, one value per field: the status string ("2" for
Fail), the project name, "master", "", the log byte for byte, "1" and
"http://example.com". -/
theorem mainReport_form_round_trip (net : Transport) (endpoint project out : GoString)
    (status : String) (err : Option Error) :
    ((mainReport net endpoint project status out err).request.form.map Prod.fst =
      [str "status", str "project", str "branch", str "vc_log", str "body", str "revision",
       str "repo"]) ∧
    (mainReport net endpoint project status out err).request.body =
      Values.Encode (mainReport net endpoint project status out err).request.form ∧
    ParseQuery (mainReport net endpoint project status out err).request.body =
      some (decodedForm (str status) project out, none) ∧
    (∀ k, Values.lookup (decodedForm (str status) project out) k =
      Values.lookup (mainReport net endpoint project status out err).request.form k) ∧
    Values.lookup (decodedForm (str status) project out) (str "status") = [str status] ∧
    Values.lookup (decodedForm (str status) project out) (str "project") = [project] ∧
    Values.lookup (decodedForm (str status) project out) (str "branch") = [str "master"] ∧
    Values.lookup (decodedForm (str status) project out) (str "vc_log") = [str ""] ∧
    Values.lookup (decodedForm (str status) project out) (str "body") = [out] ∧
    Values.lookup (decodedForm (str status) project out) (str "revision") = [str "1"] ∧
    Values.lookup (decodedForm (str status) project out) (str "repo") =
      [str "http://example.com"] ∧
    (status = STATUS_FAIL →
      Values.Get (decodedForm (str status) project out) (str "status") = str "2") := by
  rw [mainReport_request]
  refine ⟨rfl, rfl, ParseQuery_Encode_reportForm _ _ _, decodedForm_lookup _ _ _,
    rfl, rfl, rfl, rfl, rfl, rfl, rfl, ?_⟩
  intro h
  subst h
  rfl

/-- C7, as stated, fails: a response with status 500 is not a success status,
yet the client returns normally on both paths. -/
theorem mainReport_returns_on_status_500 :
    isSuccessStatus 500 = false ∧
    (mainReport (fun _ => .ok ⟨500⟩) (str "http://collector/report") (str "demo") "2"
      (str "log") (some "exit status 1")).exit = Exit.returned ∧
    (mainReport (fun _ => .ok ⟨500⟩) (str "http://collector/report") (str "demo") "1"
      (str "log") none).exit = Exit.returned :=
  ⟨rfl, rfl, rfl⟩

/-- C7, amended: the invocation is fatal exactly when the POST yields a
transport error, with that error; every response, whatever its HTTP status,
leads to a normal return. -/
theorem mainReport_fatal_on_transport_error (net : Transport)
    (endpoint project out : GoString) (status : String) (err : Option Error) :
    (∀ e, net (mainReport net endpoint project status out err).request = .error e →
      (mainReport net endpoint project status out err).exit = Exit.fatal e) ∧
    (∀ resp, net (mainReport net endpoint project status out err).request = .ok resp →
      (mainReport net endpoint project status out err).exit = Exit.returned) := by
  rw [mainReport_request]
  constructor
  · intro e h
    cases err <;> simp only [mainReport, PostForm] <;> split <;> simp_all [reportForm, str]
  · intro resp h
    cases err <;> simp only [mainReport, PostForm] <;> split <;> simp_all [reportForm, str]

/-- The bytes of the reply to a request without `repository`: `json.Marshal`
writes the members of the map by ascending key. -/
theorem Response_String_missing :
    Response.String [(str "success", .bool false),
      (str "message", .string (str "Missing mandatory parameter: repository"))] =
      str "\x7b\"message\":\"Missing mandatory parameter: repository\",\"success\":false\x7d" := by
  decide

/-- The bytes of the reply to an accepted request. -/
theorem Response_String_enqueued :
    Response.String [(str "success", .bool true), (str "message", .string (str "enqueued."))] =
      str "\x7b\"message\":\"enqueued.\",\"success\":true\x7d" := by
  decide

/-- Being the same JSON is not trivial: another value, a missing member or one
member more makes two texts differ. -/
theorem sameJSON_discriminates :
    sameJSON (str "\x7b\"message\":\"enqueued.\",\"success\":true\x7d")
      (str "\x7b\"success\":false,\"message\":\"enqueued.\"\x7d") = false ∧
    sameJSON (str "\x7b\"message\":\"enqueued.\",\"success\":true\x7d")
      (str "\x7b\"success\":true\x7d") = false ∧
    sameJSON (str "\x7b\"message\":\"enqueued.\",\"success\":true\x7d")
      (str "\x7b\"success\":true,\"message\":\"enqueued.\",\"more\":true\x7d") = false ∧
    sameJSON (str "\x7b\"message\":\"enqueued.\",\"success\":true\x7d")
      (str "\x7b\"success\":true,\"message\":\"enqueued\"\x7d") = false := by
  decide

/-- C8: with an empty `repository` no worker is started and the reply body is
the JSON `{"success":false,"message":"Missing mandatory parameter:
repository"}`; otherwise exactly one worker is started, with that repository
and with the branch given, or "master" when it is empty, and the reply body is
the JSON `{"success":true,"message":"enqueued."}`. The reply is a function of
the request alone: nothing the worker does enters it. -/
theorem enqueueHandler_reply (r : Request) :
    (r.formValue (str "repository") = [] →
      (enqueueHandler r).workers = [] ∧
      sameJSON (enqueueHandler r).body
        (str "\x7b\"success\":false,\"message\":\"Missing mandatory parameter: repository\"\x7d")
        = true) ∧
    (r.formValue (str "repository") ≠ [] →
      (enqueueHandler r).workers =
        [(r.formValue (str "repository"),
          if r.formValue (str "branch") = [] then str "master"
          else r.formValue (str "branch"))] ∧
      sameJSON (enqueueHandler r).body
        (str "\x7b\"success\":true,\"message\":\"enqueued.\"\x7d") = true) := by
  have h1 : sameJSON
      (str "\x7b\"message\":\"Missing mandatory parameter: repository\",\"success\":false\x7d")
      (str "\x7b\"success\":false,\"message\":\"Missing mandatory parameter: repository\"\x7d")
      = true := by decide
  have h2 : sameJSON (str "\x7b\"message\":\"enqueued.\",\"success\":true\x7d")
      (str "\x7b\"success\":true,\"message\":\"enqueued.\"\x7d") = true := by decide
  constructor
  · intro h
    simp [enqueueHandler, h, Response_String_missing, h1]
  · intro h
    simp [enqueueHandler, h, Response_String_enqueued, h2, List.length_eq_zero]

/-- C9, evaluated: the pairs (".", "x") and ("x", ".") differ in repository and
in branch, both components non-empty, and get the same working directory. -/
theorem tmpdir_collision :
    tmpdir (str "/home/u/work") (str ".") (str "x") = some (str "/home/u/work/x") ∧
    tmpdir (str "/home/u/work") (str "x") (str ".") = some (str "/home/u/work/x") := by
  decide

/-- C10, evaluated: with repository ".." and branch ".." the directory that
runWorker removes and recreates lies outside workDir, and with "." and "." it
is workDir itself. -/
theorem tmpdir_leaves_workDir :
    tmpdir (str "/home/u/work") (str "..") (str "..") = some (str "/home") ∧
    tmpdir (str "/home/u/work") (str ".") (str ".") = some (str "/home/u/work") ∧
    runWorker (str "/home/u/work") (str "..") (str "..") =
      some [.removeAll (str "/home"), .mkdirAll (str "/home"),
        .gitClone (str "..") (str "..") (str "/home")] := by
  decide

/-! ### Concrete runs on the scripted system -/

/-- C1 on a concrete run: with `make test` scripted to fail, the MakeMaker
strategy is Fail "2" with that command's error. -/
theorem strategies_classified_witness :
    (RunMakefilePL scripted [] ⟨⟨0, ["Makefile.PL"], [⟨"make", ["test"]⟩]⟩, []⟩).status = "2" ∧
    (RunMakefilePL scripted [] ⟨⟨0, ["Makefile.PL"], [⟨"make", ["test"]⟩]⟩, []⟩).err =
      some "exit status 1" :=
  (strategies_classified scripted [] ⟨⟨0, ["Makefile.PL"], [⟨"make", ["test"]⟩]⟩, []⟩).2.2.2.1
    "exit status 1" (by decide) (by decide) (by decide)

/-- C3 on a concrete run: a Makefile.PL-only project whose `make test` fails
is Fail, having started the three MakeMaker commands in order. -/
theorem strategies_run_up_to_first_failure_witness :
    (RunTests scripted ⟨⟨0, ["Makefile.PL"], [⟨"make", ["test"]⟩]⟩, []⟩).status = "2" ∧
    started ⟨⟨0, ["Makefile.PL"], [⟨"make", ["test"]⟩]⟩, []⟩
        (RunTests scripted ⟨⟨0, ["Makefile.PL"], [⟨"make", ["test"]⟩]⟩, []⟩) =
      [⟨"perl", ["Makefile.PL"]⟩, ⟨"make", []⟩, ⟨"make", ["test"]⟩] :=
  have h := (strategies_run_up_to_first_failure scripted []
    ⟨⟨0, ["Makefile.PL"], [⟨"make", ["test"]⟩]⟩, []⟩).2.2.1
    (by decide) (by decide) (by decide) ⟨by decide, by decide, by decide⟩
  ⟨h.1, h.2.1⟩

/-- C5 on a concrete run: with both `Build.PL` and `Makefile.PL` present the
run is the Module::Build one. -/
theorem RunTests_detection_priority_witness :
    RunTests scripted ⟨⟨0, ["Makefile.PL", "Build.PL"], []⟩, []⟩ =
      RunBuildPL scripted [] ⟨⟨0, ["Makefile.PL", "Build.PL"], []⟩, []⟩ :=
  ((RunTests_detection_priority scripted ⟨⟨0, ["Makefile.PL", "Build.PL"], []⟩, []⟩).2.1
    (by decide) (by decide)).1

/-- C6 on a concrete run: status Fail, project "demo" and a log with spaces,
separators and a newline; the decoded status is "2" and the decoded body is
the log. -/
theorem mainReport_form_round_trip_witness :
    ParseQuery (mainReport (fun _ => .ok ⟨200⟩) (str "http://collector/report") (str "demo")
        STATUS_FAIL (str "\n++ t0 ++\nnot ok 1 - a&b=c;d %41\n") (some "exit status 1")).request.body =
      some (decodedForm (str "2") (str "demo") (str "\n++ t0 ++\nnot ok 1 - a&b=c;d %41\n"), none) ∧
    Values.Get (decodedForm (str STATUS_FAIL) (str "demo")
        (str "\n++ t0 ++\nnot ok 1 - a&b=c;d %41\n")) (str "status") = str "2" :=
  have h := mainReport_form_round_trip (fun _ => .ok ⟨200⟩) (str "http://collector/report")
    (str "demo") (str "\n++ t0 ++\nnot ok 1 - a&b=c;d %41\n") STATUS_FAIL (some "exit status 1")
  ⟨h.2.2.1, h.2.2.2.2.2.2.2.2.2.2.2 rfl⟩

/-- C7 on a concrete run: a refused connection is fatal with that error. -/
theorem mainReport_fatal_on_transport_error_witness :
    (mainReport (fun _ => .error "connection refused") (str "http://collector/report")
      (str "demo") "1" (str "ok") none).exit = Exit.fatal "connection refused" :=
  (mainReport_fatal_on_transport_error (fun _ => .error "connection refused")
    (str "http://collector/report") (str "demo") (str "ok") "1" none).1
    "connection refused" rfl

/-- C8 on a concrete request: a repository and no branch start one worker on
"master". -/
theorem enqueueHandler_reply_witness :
    (enqueueHandler ⟨fun k => if k = str "repository" then str "git://example.com/r.git"
      else []⟩).workers = [(str "git://example.com/r.git", str "master")] ∧
    sameJSON (enqueueHandler ⟨fun k => if k = str "repository" then str "git://example.com/r.git"
      else []⟩).body (str "\x7b\"success\":true,\"message\":\"enqueued.\"\x7d") = true :=
  (enqueueHandler_reply ⟨fun k => if k = str "repository" then str "git://example.com/r.git"
    else []⟩).2 (by decide)

end Ukigumo
